import Mathlib

/-!
Verification development for the `ghpro` repository (backport tooling).

The repository contains two variants of the same tool:
`ghpro/backport.py` (cherry-pick strategy, "Strategy A") and
`ghtools/backport.py` (raw-patch strategy, "Strategy B"), plus
`ghpro/utils.py` (`guess_project`).

The development below is a shallow embedding:
* pure text processing (regular-expression extraction, sanitization,
  version comparison) is translated into executable Lean functions;
* the stateful `backport_pr` functions are modelled as functions from an
  explicit environment (the answers the surrounding git repository /
  HTTP service would give) to the ordered trace of state-changing
  commands they issue together with their outcome (exit code or an
  uncaught Python exception);
* `tobackport` is modelled as a pure classification of the two input
  sets `already` and `should`, with the fetched pull-request records
  supplied as a function argument, together with the list of lines it
  prints.
-/

/-! ### Basic list/string helpers

Python `in` (substring test), `str.startswith`-like prefix test and
single-character `str.replace` are modelled directly on `List Char`.
-/

/-- `startsWithL needle hay` : `needle` is a literal leading part of `hay`. -/
def startsWithL : List Char → List Char → Bool
  | [], _ => true
  | _ :: _, [] => false
  | a :: as, b :: bs => a = b && startsWithL as bs

/-- `containsL needle hay` : `needle` occurs contiguously inside `hay`
(Python's `needle in hay`). -/
def containsL (needle : List Char) : List Char → Bool
  | [] => needle.isEmpty
  | c :: rest => startsWithL needle (c :: rest) || containsL needle rest

/-- Python `needle in hay` on strings. -/
def strContains (needle hay : String) : Bool :=
  containsL needle.toList hay.toList

/-- Python `s[:n]` (first `n` characters). -/
def takeStr (s : String) (n : Nat) : String :=
  String.mk (s.toList.take n)

/-- Python `s.replace(a, b)` for a single-character needle `a` and
single-character replacement `b`. -/
def replaceChar (a b : Char) (s : String) : String :=
  String.mk (s.toList.map fun c => if c = a then b else c)

/-- Numeric value of a run of decimal digits (Python `int` on the
captured group, which is always a nonempty digit run). -/
def digitsToNat (l : List Char) : Nat :=
  l.foldl (fun acc c => 10 * acc + (c.toNat - 48)) 0

/-! ### Data model (§3 of the spec / the GitHub API records used) -/

/-- A milestone record, as used by `tobackport`: `pr['milestone']['title']`. -/
structure MilestoneRec where
  title : String
deriving DecidableEq

/-- Pull-request record as consumed by the code (`get_pull_request`).
`body` is `Option` because the hosting API permits a null body. -/
structure PullRequest where
  number : Nat
  title : String
  body : Option String
  merged : Bool
  merge_commit_sha : String
  patch_url : String
  milestone : Option MilestoneRec
deriving DecidableEq

/-- One entry of `get_pull_request_files`: only `filename` is used. -/
structure ChangedFile where
  filename : String
deriving DecidableEq

/-! ### `distutils` `LooseVersion` (the `V` used by `tobackport`)

`LooseVersion.parse` splits the version string with
`re.split(r'(\d+|[a-z]|\.)')`, keeps every nonempty piece other than
`'.'`, and converts the pieces that are digit runs to integers.  Hence
a component is either a number (a maximal digit run), a single
lowercase letter, or a maximal run of any other characters (the
unmatched separator text, which never contains a digit, a lowercase
letter or a dot).  Comparison is Python list comparison; for the
mixed number/string case we use the Python 2 rule (numbers sort before
strings), matching the interpreter generation the code targets. -/

inductive VComp where
  | num (n : Nat)
  | vstr (s : List Char)
deriving DecidableEq

/-- Scanner accumulator: pending digit run or pending other-run
(both stored reversed). -/
inductive VAcc where
  | nil
  | dig (ds : List Char)
  | oth (cs : List Char)
deriving DecidableEq

def vflush : VAcc → List VComp
  | .nil => []
  | .dig ds => [.num (digitsToNat ds.reverse)]
  | .oth cs => [.vstr cs.reverse]

def looseParseAux : VAcc → List Char → List VComp
  | acc, [] => vflush acc
  | acc, c :: rest =>
    if c.isDigit then
      match acc with
      | .dig ds => looseParseAux (.dig (c :: ds)) rest
      | a => vflush a ++ looseParseAux (.dig [c]) rest
    else if 'a' ≤ c ∧ c ≤ 'z' then
      vflush acc ++ VComp.vstr [c] :: looseParseAux .nil rest
    else if c = '.' then
      vflush acc ++ looseParseAux .nil rest
    else
      match acc with
      | .oth cs => looseParseAux (.oth (c :: cs)) rest
      | a => vflush a ++ looseParseAux (.oth [c]) rest

/-- `LooseVersion(s).version` : the component list. -/
def looseParse (s : String) : List VComp :=
  looseParseAux .nil s.toList

/-- Python `<` on code-point lists (string comparison). -/
def charListLT : List Char → List Char → Bool
  | [], [] => false
  | [], _ :: _ => true
  | _ :: _, [] => false
  | a :: as, b :: bs => if a < b then true else if a = b then charListLT as bs else false

def vcompLT : VComp → VComp → Bool
  | .num a, .num b => a < b
  | .vstr a, .vstr b => charListLT a b
  | .num _, .vstr _ => true
  | .vstr _, .num _ => false

def vcompEq : VComp → VComp → Bool
  | .num a, .num b => a = b
  | .vstr a, .vstr b => a = b
  | _, _ => false

/-- Python list `<` (lexicographic, a strict prefix is smaller). -/
def vlistLT : List VComp → List VComp → Bool
  | [], [] => false
  | [], _ :: _ => true
  | _ :: _, [] => false
  | a :: as, b :: bs => vcompLT a b || (vcompEq a b && vlistLT as bs)

/-- `V(a) < V(b)` : the milestone-version comparison used by `tobackport`. -/
def looseLT (a b : String) : Bool :=
  vlistLT (looseParse a) (looseParse b)

/-! ### The `backport_re` regular expressions

`ghpro`  : `(?:[Bb]ackport|[Mm]erge).*?(\d+)(?:[^.])`
`ghtools`: `(?:[Bb]ackport|[Mm]erge).*?(\d+)`

`re.findall` scans left to right, at each position trying the whole
pattern; on success it collects the `(\d+)` capture and resumes after
the match.  `.` does not match a newline; `[^.]` does.  The lazy
`.*?` prefers the shortest gap; the greedy `(\d+)` takes the maximal
digit run and gives back at most one digit when the trailing `[^.]`
would otherwise face a `'.'` or the end of the input.
-/

/-- Match `(?:[Bb]ackport|[Mm]erge)` at the head of `cs`; return the
rest of the input after the keyword. -/
def keywordAt (cs : List Char) : Option (List Char) :=
  if startsWithL "Backport".toList cs then some (cs.drop 8)
  else if startsWithL "backport".toList cs then some (cs.drop 8)
  else if startsWithL "Merge".toList cs then some (cs.drop 5)
  else if startsWithL "merge".toList cs then some (cs.drop 5)
  else none

namespace ghpro

/-- Match `(\d+)(?:[^.])` at the head of `cs` (greedy digits with the
single-step backtrack forced by the trailing `[^.]`).  Returns the
captured value and the rest of the input after the whole match. -/
def tryDigits (cs : List Char) : Option (Nat × List Char) :=
  let run := cs.takeWhile Char.isDigit
  if run.isEmpty then none
  else
    match cs.drop run.length with
    | c :: rest =>
      if c = '.' then
        if 2 ≤ run.length then
          some (digitsToNat (run.take (run.length - 1)), cs.drop run.length)
        else none
      else some (digitsToNat run, rest)
    | [] =>
      if 2 ≤ run.length then
        some (digitsToNat (run.take (run.length - 1)), [])
      else none

/-- The lazy `.*?` scan: try `(\d+)(?:[^.])` at the current position,
else consume one non-newline character and retry. -/
def lazyScan : List Char → Option (Nat × List Char)
  | [] => none
  | c :: rest =>
    match tryDigits (c :: rest) with
    | some r => some r
    | none => if c = '\n' then none else lazyScan rest

/-- `re.findall` for the ghpro `backport_re`, with fuel (each step
consumes at least one character, so `cs.length` fuel suffices). -/
def findallAux : Nat → List Char → List Nat
  | 0, _ => []
  | _ + 1, [] => []
  | fuel + 1, c :: rest =>
    match keywordAt (c :: rest) with
    | some tail =>
      match lazyScan tail with
      | some (n, rem) => n :: findallAux fuel rem
      | none => findallAux fuel rest
    | none => findallAux fuel rest

/-- `backport_re.findall(s)` (captures converted by `int`). -/
def backport_re_findall (s : String) : List Nat :=
  findallAux s.toList.length s.toList

/-- `already_backported`, as a function of the one-line log text that
`repo.git.log('<since>..<branch>', '--oneline')` returns. -/
def already_backported (log : String) : Finset Nat :=
  (backport_re_findall log).toFinset

end ghpro

namespace ghtools

/-- Match `(\d+)` at the head of `cs` (greedy digit run). -/
def tryDigits (cs : List Char) : Option (Nat × List Char) :=
  let run := cs.takeWhile Char.isDigit
  if run.isEmpty then none
  else some (digitsToNat run, cs.drop run.length)

/-- The lazy `.*?` scan for the ghtools pattern. -/
def lazyScan : List Char → Option (Nat × List Char)
  | [] => none
  | c :: rest =>
    match tryDigits (c :: rest) with
    | some r => some r
    | none => if c = '\n' then none else lazyScan rest

/-- `re.findall` for the ghtools `backport_re`, with fuel. -/
def findallAux : Nat → List Char → List Nat
  | 0, _ => []
  | _ + 1, [] => []
  | fuel + 1, c :: rest =>
    match keywordAt (c :: rest) with
    | some tail =>
      match lazyScan tail with
      | some (n, rem) => n :: findallAux fuel rem
      | none => findallAux fuel rest
    | none => findallAux fuel rest

/-- `backport_re.findall(s)` for the ghtools variant. -/
def backport_re_findall (s : String) : List Nat :=
  findallAux s.toList.length s.toList

/-- `already_backported`, as a function of the one-line log text. -/
def already_backported (log : String) : Finset Nat :=
  (backport_re_findall log).toFinset

end ghtools

/-! ### Trace model of the two `backport_pr` functions

Each state-changing action the function asks of git / the filesystem /
the network is recorded as one `GitCmd` event, in order.  Read-only
queries (active branch, tracking lookup, `git status` text, whether
`PR<n>.patch` exists, the HTTP response, whether the cherry-pick /
`apply --check` succeed) are answers supplied by the environment.
The outcome is either a Python-style uncaught exception or the exit
code the function returns.
-/

inductive GitCmd where
  | checkout (branch : String)
  | pull
  | cherry_pick (args : List String)
  | commit_amend (msg : String)
  | read_patch (fname : String)
  | http_get (url : String)
  | apply_check (patch : String)
  | apply_patch (patch : String)
  | add_files (files : List String)
  | commit (msg : String)
  | write_patch (fname : String) (content : String)
deriving DecidableEq

inductive PyErr where
  | attributeError
  | indexError
  | httpError (status : Nat)
deriving DecidableEq

/-- Outcome of a modelled Python call: a normally returned value or an
uncaught exception. -/
inductive PyResult (α : Type) where
  | ret (v : α)
  | raise (e : PyErr)
deriving DecidableEq

/-- `"Backport PR #%i: %s" % (num, title) + '\n\n' + description`. -/
def msgFor (num : Nat) (title description : String) : String :=
  "Backport PR #" ++ toString num ++ ": " ++ title ++ "\n\n" ++ description

/-- Environment answers for Strategy A (`ghpro.backport_pr`). -/
structure GitEnvA where
  /-- `repo.active_branch.name` at entry. -/
  activeBranch : String
  /-- whether `git for-each-ref --format=%(upstream:short) refs/heads/<branch>`
  printed anything (the target branch tracks an upstream). -/
  tracking : Bool
  /-- the `repo.git.status()` text read before cherry-picking. -/
  statusText : String
  /-- whether the `git cherry-pick` invocation succeeds. -/
  cherryPickOk : Bool
deriving DecidableEq

namespace ghpro

/-- `description.replace('@', ' ').replace('#', ' ')`. -/
def sanitize (body : String) : String :=
  replaceChar '#' ' ' (replaceChar '@' ' ' body)

/-- Shared tail of `backport_pr` from the `repo.git.cherry_pick(*args)`
call on: failure returns 1 (leaving the trace as is), success amends
the commit message and restores the original branch if it was changed. -/
def runPick (env : GitEnvA) (branch current : String) (num : Nat)
    (title description : String) (t : List GitCmd) (args : List String) :
    List GitCmd × PyResult Nat :=
  let t2 := t ++ [GitCmd.cherry_pick args]
  if env.cherryPickOk then
    let msg := msgFor num title description
    let t3 := t2 ++ [GitCmd.commit_amend msg]
    let t4 := t3 ++ (if branch ≠ current then [GitCmd.checkout current] else [])
    (t4, PyResult.ret 0)
  else
    (t2, PyResult.ret 1)

/-- Strategy A (`ghpro/backport.py`, `backport_pr`). -/
def backport_pr (env : GitEnvA) (branch : String) (num : Nat) (pr : PullRequest) :
    List GitCmd × PyResult Nat :=
  let current := env.activeBranch
  let t1 : List GitCmd :=
    (if branch ≠ current then [GitCmd.checkout branch] else []) ++
    (if env.tracking then [GitCmd.pull] else [])
  match pr.body with
  | none => (t1, PyResult.raise PyErr.attributeError)
  | some body =>
    let description := sanitize body
    let sha := pr.merge_commit_sha
    let status := env.statusText
    if strContains "cherry-picking" status then
      if strContains ("cherry-picking commit " ++ takeStr sha 6) status then
        runPick env branch current num pr.title description t1 ["--continue"]
      else
        (t1, PyResult.ret 1)
    else
      runPick env branch current num pr.title description t1 ["-m", "1", sha]

end ghpro

/-- Environment answers for Strategy B (`ghtools.backport_pr`). -/
structure GitEnvB where
  /-- `repo.active_branch.name` at entry. -/
  activeBranch : String
  /-- whether `PR<num>.patch` exists in the working directory at entry. -/
  patchFileExists : Bool
  /-- content of that file when it exists. -/
  localPatch : String
  /-- HTTP status of `requests.get(patch_url)`. -/
  httpStatus : Nat
  /-- body of that response. -/
  httpContent : String
  /-- whether `git apply --check --verbose` exits with code 0. -/
  checkOk : Bool
deriving DecidableEq

namespace ghtools

/-- `description.replace('@', '_')`. -/
def sanitize (body : String) : String :=
  replaceChar '@' '_' body

/-- Shared tail of `backport_pr` from the `git apply --check` call on:
on check failure the patch is saved to `fname` only when the file did
not already exist, and 1 is returned; on check success the patch is
applied, the changed files staged, a fresh commit made, and the
original branch restored if it was changed. -/
def finishPatch (env : GitEnvB) (branch current : String)
    (files : List ChangedFile) (msg fname : String) (t : List GitCmd) (patch : String) :
    List GitCmd × PyResult Nat :=
  let t3 := t ++ [GitCmd.apply_check patch]
  if env.checkOk then
    let t4 := t3 ++ [GitCmd.apply_patch patch,
      GitCmd.add_files (files.map ChangedFile.filename), GitCmd.commit msg]
    let t5 := t4 ++ (if branch ≠ current then [GitCmd.checkout current] else [])
    (t5, PyResult.ret 0)
  else
    let t4 := t3 ++ (if env.patchFileExists then [] else [GitCmd.write_patch fname patch])
    (t4, PyResult.ret 1)

/-- Strategy B (`ghtools/backport.py`, `backport_pr`). -/
def backport_pr (env : GitEnvB) (branch : String) (num : Nat) (pr : PullRequest)
    (files : List ChangedFile) : List GitCmd × PyResult Nat :=
  let current := env.activeBranch
  let t1 : List GitCmd :=
    (if branch ≠ current then [GitCmd.checkout branch] else []) ++ [GitCmd.pull]
  match pr.body with
  | none => (t1, PyResult.raise PyErr.attributeError)
  | some body =>
    let description := sanitize body
    let fname := "PR" ++ toString num ++ ".patch"
    let msg := msgFor num pr.title description
    if env.patchFileExists then
      finishPatch env branch current files msg fname
        (t1 ++ [GitCmd.read_patch fname]) env.localPatch
    else
      let t2 := t1 ++ [GitCmd.http_get pr.patch_url]
      if 400 ≤ env.httpStatus ∧ env.httpStatus < 600 then
        (t2, PyResult.raise (PyErr.httpError env.httpStatus))
      else
        finishPatch env branch current files msg fname t2 env.httpContent

end ghtools

/-! ### `tobackport` (identical in both variants)

`already` (from `already_backported`) and `should` (from
`should_backport`) are the two input sets; `get_pull_request` is
supplied as a function.  The mutable-set loop over `sorted(shouldnt)`
is the fold `classify`.
-/

/-- Insert into a `≤`-sorted list of numbers. -/
def insertSorted (n : Nat) : List Nat → List Nat
  | [] => [n]
  | m :: rest => if n ≤ m then n :: m :: rest else m :: insertSorted n rest

instance : LeftCommutative insertSorted :=
  ⟨fun a b l => by
    induction l with
    | nil =>
      by_cases h1 : a ≤ b <;> by_cases h2 : b ≤ a <;>
        simp [insertSorted, h1, h2] <;> omega
    | cons m rest ih =>
      by_cases hb : b ≤ m <;> by_cases ha : a ≤ m
      · by_cases h1 : a ≤ b <;> by_cases h2 : b ≤ a <;>
          simp [insertSorted, hb, ha, h1, h2] <;> omega
      · have h1 : ¬ a ≤ b := by omega
        simp [insertSorted, hb, ha, h1]
      · have h2 : ¬ b ≤ a := by omega
        simp [insertSorted, hb, ha, h2]
      · simp [insertSorted, hb, ha, ih]⟩

/-- Python `sorted(s)` for a set of integers: the ascending list of its
elements (insertion sort, so that it evaluates structurally). -/
def pySorted (s : Finset Nat) : List Nat :=
  Multiset.foldr insertSorted [] s.val

/-- The loop condition `pr['milestone'] and V(pr['milestone']['title']) < V(milestone)`
(`None` is falsy, so a pull request without a milestone never passes). -/
def acceptable (getPR : Nat → PullRequest) (milestone : String) (num : Nat) : Bool :=
  match (getPR num).milestone with
  | some m => looseLT m.title milestone
  | none => false

/-- The `for num in sorted(shouldnt)` loop: passing entries are added
to `ok`, the rest are appended (in order) to `still_shouldnt`. -/
def classify (getPR : Nat → PullRequest) (milestone : String) :
    List Nat → Finset Nat → Finset Nat × List Nat
  | [], ok => (ok, [])
  | num :: rest, ok =>
    if acceptable getPR milestone num then
      classify getPR milestone rest (insert num ok)
    else
      let r := classify getPR milestone rest ok
      (r.1, num :: r.2)

/-- The three groups `tobackport` reports. -/
structure TodoReport where
  todo : Finset Nat
  ok : Finset Nat
  still_shouldnt : List Nat

/-- The set computation of `tobackport`. -/
def tobackportCore (already should : Finset Nat) (getPR : Nat → PullRequest)
    (milestone : String) : TodoReport :=
  let todo := should \ already
  let shouldnt := already \ should
  let ok0 := already ∩ should
  let r := classify getPR milestone (pySorted shouldnt) ok0
  ⟨todo, r.1, r.2⟩

/-- A printed line: either a literal message or a pull-request number
(`print(pr)` on an `int`). -/
inductive OutLine where
  | msg (s : String)
  | num (n : Nat)
deriving DecidableEq

/-- The lines `tobackport` prints, in order. -/
def tobackportOutput (already should : Finset Nat) (getPR : Nat → PullRequest)
    (milestone : String) : List OutLine :=
  let r := tobackportCore already should getPR milestone
  let okL := pySorted r.ok
  let todoL := pySorted r.todo
  (if r.still_shouldnt = [] then [] else
    OutLine.msg "The following PRs have been backported, but perhaps shouldn't be:" ::
      r.still_shouldnt.map OutLine.num) ++
  (if okL = [] then [] else
    OutLine.msg "The following PRs have been backported" :: okL.map OutLine.num) ++
  (if todoL = [] then [OutLine.msg "Everything appears up-to-date"] else
    OutLine.msg "The following PRs should be backported:" :: todoL.map OutLine.num)

/-! ### `guess_project` (`ghpro/utils.py`)

`_project_pat = re.compile('.*github.com[:/](.*)\.git', re.IGNORECASE)`,
used with `re.match` (anchored at the start, free at the end).  Both
`.*` are greedy and cannot cross a newline; the literals are matched
case-insensitively.
-/

/-- Case-insensitive literal prefix match: `pat` is given lowercase and
compared against the lowercased text. -/
def startsWithCI : List Char → List Char → Bool
  | [], _ => true
  | _ :: _, [] => false
  | a :: as, b :: bs => a = b.toLower && startsWithCI as bs

/-- Match `(.*)\.git` at the head of `cs` (greedy group, so the last
viable `.git` is taken); returns the captured group. -/
def innerGroup : List Char → Option (List Char)
  | [] => none
  | c :: rest =>
    match (if c = '\n' then none else (innerGroup rest).map fun g => c :: g) with
    | some g => some g
    | none =>
      if startsWithCI ".git".toList (c :: rest) then some [] else none

/-- Match `github.com[:/](.*)\.git` at the head of `cs`.  The dot in
`github.com` is an *unescaped* regex metacharacter, so it matches any
single non-newline character (only the dot of `\.git` is literal). -/
def tryHere (cs : List Char) : Option (List Char) :=
  if startsWithCI "github".toList cs then
    match cs.drop 6 with
    | x :: rest1 =>
      if x = '\n' then none
      else if startsWithCI "com".toList rest1 then
        match rest1.drop 3 with
        | c :: rest => if c = ':' ∨ c = '/' then innerGroup rest else none
        | [] => none
      else none
    | [] => none
  else none

/-- The leading greedy `.*`: prefer skipping as far as possible (never
past a newline), then try the rest of the pattern. -/
def outerScan : List Char → Option (List Char)
  | [] => none
  | c :: rest =>
    if c = '\n' then tryHere (c :: rest)
    else
      match outerScan rest with
      | some g => some g
      | none => tryHere (c :: rest)

/-- `_project_pat.match(url)` followed by `.group(1)`, as an `Option`. -/
def project_pat_group (url : String) : Option String :=
  (outerScan url.toList).map fun g => String.mk g

/-- A git remote: its configured name and URL. -/
structure Remote where
  name : String
  url : String
deriving DecidableEq

/-- `guess_project` (`ghpro/utils.py`): prefer remotes named
`upstream`, else those named `origin`; take the first; raise
`IndexError` when there is none; `AttributeError` when the URL does
not match `_project_pat` (`None.group(1)`). -/
def guess_project (remotes : List Remote) : PyResult String :=
  let ups := remotes.filter fun r => r.name = "upstream"
  let chosen := if ups.isEmpty then remotes.filter fun r => r.name = "origin" else ups
  match chosen with
  | [] => PyResult.raise PyErr.indexError
  | r :: _ =>
    match project_pat_group r.url with
    | none => PyResult.raise PyErr.attributeError
    | some g => PyResult.ret g

/-! ### Spec-side reference definitions

These two definitions follow the *spec's words* (not the source), for
comparison with the source-derived definitions above:
the spec describes `backport_re` as "a case-insensitive pattern
matching 'backport' or 'merge' followed eventually by a run of
digits", and `_project_pat` as matching URLs that contain
`github.com` followed by `:` or `/` with `.git` after the captured
group.
-/

/-- Case-insensitive keyword match (`backport` or `merge`, any case),
as the spec's words describe the pattern. -/
def keywordAtCI (cs : List Char) : Option (List Char) :=
  if startsWithCI "backport".toList cs then some (cs.drop 8)
  else if startsWithCI "merge".toList cs then some (cs.drop 5)
  else none

/-- `re.findall` for the spec's case-insensitive reading of
`backport_re` (keyword, lazy gap, then a run of digits). -/
def ciFindallAux : Nat → List Char → List Nat
  | 0, _ => []
  | _ + 1, [] => []
  | fuel + 1, c :: rest =>
    match keywordAtCI (c :: rest) with
    | some tail =>
      match ghtools.lazyScan tail with
      | some (n, rem) => n :: ciFindallAux fuel rem
      | none => ciFindallAux fuel rest
    | none => ciFindallAux fuel rest

/-- The set a truly case-insensitive `already_backported` would return
(spec-side reference). -/
def spec_ci_already (log : String) : Finset Nat :=
  (ciFindallAux log.toList.length log.toList).toFinset

/-- Whether the log text contains one of the four keyword spellings the
source patterns actually accept. -/
def hasBackportKeyword (s : String) : Bool :=
  containsL "Backport".toList s.toList || containsL "backport".toList s.toList ||
    containsL "Merge".toList s.toList || containsL "merge".toList s.toList

/-- The independent reading of a `_project_pat` match: the URL splits
as `a ++ g1 ++ x :: (g2 ++ c :: (b ++ d ++ e))` where `g1` spells
`github` and `g2` spells `com` case-insensitively, `x` is any
non-newline character (the dot in `github.com` is an unescaped regex
metacharacter), `c` is `:` or `/`, `d` spells `.git` case-insensitively
(that dot *is* escaped in the pattern), and the two parts matched by
`.*` contain no newline (the tail `e` is unconstrained: the match need
not reach the end of the URL). -/
def PatDecomp (cs : List Char) : Prop :=
  ∃ a g1 x g2 c b d e, cs = a ++ g1 ++ x :: (g2 ++ c :: (b ++ d ++ e)) ∧
    g1.map Char.toLower = "github".toList ∧
    x ≠ '\n' ∧
    g2.map Char.toLower = "com".toList ∧
    (c = ':' ∨ c = '/') ∧
    d.map Char.toLower = ".git".toList ∧
    '\n' ∉ a ∧ '\n' ∉ b

/-! ## Theorems -/

/-! ### Helper lemmas about sorting and the `tobackport` loop -/

theorem mem_insertSorted (a n : Nat) (l : List Nat) :
    a ∈ insertSorted n l ↔ a = n ∨ a ∈ l := by
  induction l with
  | nil => simp [insertSorted]
  | cons m rest ih =>
    by_cases h : n ≤ m <;> simp [insertSorted, h, ih]
    tauto

theorem mem_foldr_insertSorted (a : Nat) (m : Multiset Nat) :
    a ∈ Multiset.foldr insertSorted [] m ↔ a ∈ m := by
  induction m using Multiset.induction_on with
  | empty => simp
  | cons n t ih => simp [Multiset.foldr_cons, mem_insertSorted, ih]

theorem mem_pySorted (a : Nat) (s : Finset Nat) : a ∈ pySorted s ↔ a ∈ s := by
  unfold pySorted
  rw [mem_foldr_insertSorted]
  exact Iff.rfl

theorem pySorted_empty : pySorted (∅ : Finset Nat) = [] := rfl

theorem acceptable_iff (getPR : Nat → PullRequest) (milestone : String) (n : Nat) :
    acceptable getPR milestone n = true ↔
      ∃ m, (getPR n).milestone = some m ∧ looseLT m.title milestone = true := by
  unfold acceptable
  cases h : (getPR n).milestone <;> simp

theorem classify_fst (getPR : Nat → PullRequest) (milestone : String)
    (l : List Nat) (ok : Finset Nat) :
    (classify getPR milestone l ok).1 =
      ok ∪ (l.filter fun n => acceptable getPR milestone n).toFinset := by
  induction l generalizing ok with
  | nil => simp [classify]
  | cons n rest ih =>
    by_cases h : acceptable getPR milestone n <;> simp [classify, h, ih]

theorem classify_snd (getPR : Nat → PullRequest) (milestone : String)
    (l : List Nat) (ok : Finset Nat) :
    (classify getPR milestone l ok).2 =
      l.filter fun n => ! acceptable getPR milestone n := by
  induction l generalizing ok with
  | nil => simp [classify]
  | cons n rest ih =>
    by_cases h : acceptable getPR milestone n <;> simp [classify, h, ih]

/-! ### C1 : the reconciliation sets of `tobackport` -/

/-- **C1**: for every pair of sets `should` and `already`, the reported
todo set equals `should − already`; the reported ok set contains
`already ∩ should`; every element moved from the suspect set into `ok`
carries a milestone whose version is strictly `LooseVersion`-below the
target milestone version; and an element whose pull request has no
milestone is never moved into `ok` — it stays in the still-shouldn't
list. -/
theorem C1_tobackport_reconciler (already should : Finset Nat)
    (getPR : Nat → PullRequest) (milestone : String) :
    (tobackportCore already should getPR milestone).todo = should \ already ∧
    already ∩ should ⊆ (tobackportCore already should getPR milestone).ok ∧
    (∀ n ∈ (tobackportCore already should getPR milestone).ok,
      n ∉ already ∩ should →
      ∃ m, (getPR n).milestone = some m ∧ looseLT m.title milestone = true) ∧
    (∀ n ∈ already \ should, (getPR n).milestone = none →
      n ∈ (tobackportCore already should getPR milestone).still_shouldnt ∧
      n ∉ (tobackportCore already should getPR milestone).ok) := by
  refine ⟨rfl, ?_, ?_, ?_⟩
  · intro n hn
    show n ∈ (classify getPR milestone (pySorted (already \ should)) (already ∩ should)).1
    rw [classify_fst]
    exact Finset.mem_union_left _ hn
  · intro n hn hnotin
    have hn' : n ∈ (classify getPR milestone (pySorted (already \ should)) (already ∩ should)).1 := hn
    rw [classify_fst, Finset.mem_union] at hn'
    rcases hn' with h | h
    · exact absurd h hnotin
    · rw [List.mem_toFinset, List.mem_filter] at h
      exact (acceptable_iff getPR milestone n).mp h.2
  · intro n hn hmil
    have hacc : acceptable getPR milestone n = false := by
      unfold acceptable
      rw [hmil]
    constructor
    · show n ∈ (classify getPR milestone (pySorted (already \ should)) (already ∩ should)).2
      rw [classify_snd, List.mem_filter]
      exact ⟨(mem_pySorted n _).mpr hn, by rw [hacc]; rfl⟩
    · show n ∉ (classify getPR milestone (pySorted (already \ should)) (already ∩ should)).1
      rw [classify_fst, Finset.mem_union]
      rintro (h | h)
      · exact (Finset.mem_sdiff.mp hn).2 (Finset.mem_inter.mp h).2
      · rw [List.mem_toFinset, List.mem_filter, hacc] at h
        exact Bool.false_ne_true h.2

/-- Witness for C1 at a concrete input: `already = {1, 2, 4}`,
`should = {2, 3}`, pull request 1 milestoned `0.5` (below target
`1.0`), pull request 4 unmilestoned. -/
theorem C1_tobackport_reconciler_witness :
    (∃ m, ((fun n => if n = 1 then
        (⟨1, "", none, true, "", "", some ⟨"0.5"⟩⟩ : PullRequest)
        else ⟨n, "", none, true, "", "", none⟩) 1).milestone = some m ∧
      looseLT m.title "1.0" = true) ∧
    4 ∈ (tobackportCore {1, 2, 4} {2, 3} (fun n => if n = 1 then
        (⟨1, "", none, true, "", "", some ⟨"0.5"⟩⟩ : PullRequest)
        else ⟨n, "", none, true, "", "", none⟩) "1.0").still_shouldnt ∧
    4 ∉ (tobackportCore {1, 2, 4} {2, 3} (fun n => if n = 1 then
        (⟨1, "", none, true, "", "", some ⟨"0.5"⟩⟩ : PullRequest)
        else ⟨n, "", none, true, "", "", none⟩) "1.0").ok :=
  ⟨(C1_tobackport_reconciler {1, 2, 4} {2, 3} (fun n => if n = 1 then
        (⟨1, "", none, true, "", "", some ⟨"0.5"⟩⟩ : PullRequest)
        else ⟨n, "", none, true, "", "", none⟩) "1.0").2.2.1 1 (by decide) (by decide),
   (C1_tobackport_reconciler {1, 2, 4} {2, 3} (fun n => if n = 1 then
        (⟨1, "", none, true, "", "", some ⟨"0.5"⟩⟩ : PullRequest)
        else ⟨n, "", none, true, "", "", none⟩) "1.0").2.2.2 4 (by decide) (by decide)⟩

/-! ### C7 : `already = should` means up-to-date -/

/-- **C7**: whenever the computed set `already` equals the computed set
`should` (so no suspect entries exist), `tobackport` has an empty todo
set, prints the up-to-date message, and never prints the
"should be backported" section. -/
theorem C7_up_to_date (already should : Finset Nat) (getPR : Nat → PullRequest)
    (milestone : String) (h : already = should) :
    (tobackportCore already should getPR milestone).todo = ∅ ∧
    OutLine.msg "Everything appears up-to-date" ∈
      tobackportOutput already should getPR milestone ∧
    OutLine.msg "The following PRs should be backported:" ∉
      tobackportOutput already should getPR milestone := by
  subst h
  have hcore : tobackportCore already already getPR milestone =
      ⟨∅, already ∩ already, []⟩ := by
    unfold tobackportCore
    rw [Finset.sdiff_self]
    rfl
  refine ⟨by rw [hcore], ?_, ?_⟩
  · simp only [tobackportOutput, hcore]
    by_cases hok : pySorted (already ∩ already) = [] <;>
      simp [hok, pySorted_empty]
  · simp only [tobackportOutput, hcore]
    by_cases hok : pySorted (already ∩ already) = [] <;>
      simp [hok, pySorted_empty]

/-- Witness for C7 at `already = should = {3}`. -/
theorem C7_up_to_date_witness :
    (tobackportCore {3} {3}
      (fun n => (⟨n, "", none, true, "", "", none⟩ : PullRequest)) "1.0").todo = ∅ ∧
    OutLine.msg "Everything appears up-to-date" ∈
      tobackportOutput {3} {3}
        (fun n => (⟨n, "", none, true, "", "", none⟩ : PullRequest)) "1.0" ∧
    OutLine.msg "The following PRs should be backported:" ∉
      tobackportOutput {3} {3}
        (fun n => (⟨n, "", none, true, "", "", none⟩ : PullRequest)) "1.0" :=
  C7_up_to_date {3} {3}
    (fun n => (⟨n, "", none, true, "", "", none⟩ : PullRequest)) "1.0" rfl

/-! ### C2 : the cherry-pick resume guard of Strategy A -/

theorem cherry_pick_not_mem_start (env : GitEnvA) (branch : String) (args : List String) :
    GitCmd.cherry_pick args ∉
      ((if branch ≠ env.activeBranch then [GitCmd.checkout branch] else []) ++
       (if env.tracking then [GitCmd.pull] else [])) := by
  by_cases h1 : branch ≠ env.activeBranch <;> by_cases h2 : env.tracking <;>
    simp [h1, h2]

/-- **C2**: when the status text reports a cherry-pick in progress,
Strategy A returns 1 and never invokes any cherry-pick command if the
status does not contain `cherry-picking commit ` followed by the first
6 characters of the target merge-commit hash; and if the status does
contain that prefix, it invokes `cherry-pick --continue` and no other
cherry-pick invocation (in particular no fresh `-m 1 <sha>`). -/
theorem C2_resume_guard (env : GitEnvA) (branch : String) (num : Nat)
    (pr : PullRequest) (b : String) (hb : pr.body = some b)
    (hcp : strContains "cherry-picking" env.statusText = true) :
    (strContains ("cherry-picking commit " ++ takeStr pr.merge_commit_sha 6)
        env.statusText = false →
      (ghpro.backport_pr env branch num pr).2 = PyResult.ret 1 ∧
      ∀ args, GitCmd.cherry_pick args ∉ (ghpro.backport_pr env branch num pr).1) ∧
    (strContains ("cherry-picking commit " ++ takeStr pr.merge_commit_sha 6)
        env.statusText = true →
      GitCmd.cherry_pick ["--continue"] ∈ (ghpro.backport_pr env branch num pr).1 ∧
      ∀ args, GitCmd.cherry_pick args ∈ (ghpro.backport_pr env branch num pr).1 →
        args = ["--continue"]) := by
  constructor
  · intro hm
    simp only [ghpro.backport_pr, hb, hcp, hm]
    exact ⟨rfl, fun args => cherry_pick_not_mem_start env branch args⟩
  · intro hm
    simp only [ghpro.backport_pr, hb, hcp, hm]
    simp only [ghpro.runPick]
    by_cases hok : env.cherryPickOk <;> simp only [hok] <;> constructor
    · simp
    · intro args hargs
      rcases List.mem_append.mp hargs with h | h
      · rcases List.mem_append.mp h with h' | h'
        · rcases List.mem_append.mp h' with h'' | h''
          · exact absurd h'' (cherry_pick_not_mem_start env branch args)
          · simp at h''
            exact h''.symm ▸ rfl
        · simp at h'
      · by_cases hne : branch ≠ env.activeBranch <;> simp [hne] at h
    · simp
    · intro args hargs
      rcases List.mem_append.mp hargs with h | h
      · exact absurd h (cherry_pick_not_mem_start env branch args)
      · simp at h
        exact h.symm ▸ rfl

/-- Witness for C2: merge hash `abcdef123`; status `cherry-picking
commit abcde1` is a mismatch (exit 1, no cherry-pick command), status
`cherry-picking commit abcdef` matches (continue is invoked). -/
theorem C2_resume_guard_witness :
    ((ghpro.backport_pr ⟨"main", true, "cherry-picking commit abcde1", true⟩
        "0.13.x" 123 ⟨123, "T", some "b", true, "abcdef123", "u", none⟩).2 =
      PyResult.ret 1 ∧
     ∀ args, GitCmd.cherry_pick args ∉
      (ghpro.backport_pr ⟨"main", true, "cherry-picking commit abcde1", true⟩
        "0.13.x" 123 ⟨123, "T", some "b", true, "abcdef123", "u", none⟩).1) ∧
    GitCmd.cherry_pick ["--continue"] ∈
      (ghpro.backport_pr ⟨"main", true, "cherry-picking commit abcdef", true⟩
        "0.13.x" 123 ⟨123, "T", some "b", true, "abcdef123", "u", none⟩).1 :=
  ⟨(C2_resume_guard ⟨"main", true, "cherry-picking commit abcde1", true⟩
      "0.13.x" 123 ⟨123, "T", some "b", true, "abcdef123", "u", none⟩
      "b" rfl (by decide)).1 (by decide),
   ((C2_resume_guard ⟨"main", true, "cherry-picking commit abcdef", true⟩
      "0.13.x" 123 ⟨123, "T", some "b", true, "abcdef123", "u", none⟩
      "b" rfl (by decide)).2 (by decide)).1⟩

/-! ### C3 : branch restoration in Strategy A -/

theorem checkout_back_not_mem_start (env : GitEnvA) (branch : String)
    (hne : branch ≠ env.activeBranch) :
    GitCmd.checkout env.activeBranch ∉
      ((if branch ≠ env.activeBranch then [GitCmd.checkout branch] else []) ++
       (if env.tracking then [GitCmd.pull] else [])) := by
  by_cases h2 : env.tracking <;> simp [hne, h2, Ne.symm hne]

/-- **C3, counterexample**: on the early-exit mismatched-resume failure
path the original branch is *not* restored, contradicting the claim.
Concretely: starting on `main`, backporting onto `0.13.x` while the
status reports an unrelated `cherry-picking commit abcde1` (target
hash `abcdef123`) produces exactly `checkout 0.13.x; pull` and exit 1 —
the run ends with the repository on `0.13.x`, with no `checkout main`. -/
theorem C3_mismatch_no_restore_counterexample :
    ghpro.backport_pr ⟨"main", true, "cherry-picking commit abcde1", true⟩
      "0.13.x" 123 ⟨123, "T", some "b", true, "abcdef123", "u", none⟩ =
      ([GitCmd.checkout "0.13.x", GitCmd.pull], PyResult.ret 1) ∧
    GitCmd.checkout "main" ∉
      (ghpro.backport_pr ⟨"main", true, "cherry-picking commit abcde1", true⟩
        "0.13.x" 123 ⟨123, "T", some "b", true, "abcdef123", "u", none⟩).1 := by
  decide

/-- **C3, amended**: when the target branch differs from the active
branch, a successful run performs exactly
checkout(target) → [pull if tracking] → cherry-pick → amend →
checkout(original); on *any* failure (exit 1) — both the early-exit
mismatched-resume path and the normal cherry-pick conflict path — the
original branch is not restored: the trace contains the initial
checkout of the target branch and no checkout of the original. -/
theorem C3_branch_restore_amended (env : GitEnvA) (branch : String) (num : Nat)
    (pr : PullRequest) (b : String) (hb : pr.body = some b)
    (hne : branch ≠ env.activeBranch) :
    ((ghpro.backport_pr env branch num pr).2 = PyResult.ret 0 →
      ∃ args msg,
        (ghpro.backport_pr env branch num pr).1 =
          GitCmd.checkout branch ::
            ((if env.tracking then [GitCmd.pull] else []) ++
             [GitCmd.cherry_pick args, GitCmd.commit_amend msg,
              GitCmd.checkout env.activeBranch])) ∧
    ((ghpro.backport_pr env branch num pr).2 = PyResult.ret 1 →
      GitCmd.checkout branch ∈ (ghpro.backport_pr env branch num pr).1 ∧
      GitCmd.checkout env.activeBranch ∉ (ghpro.backport_pr env branch num pr).1) := by
  by_cases h1 : strContains "cherry-picking" env.statusText = true
  · by_cases h2 : strContains ("cherry-picking commit " ++ takeStr pr.merge_commit_sha 6)
        env.statusText = true
    · by_cases hok : env.cherryPickOk
      · constructor
        · intro _
          refine ⟨["--continue"], msgFor num pr.title (ghpro.sanitize b), ?_⟩
          simp [ghpro.backport_pr, hb, h1, h2, ghpro.runPick, hok, hne]
        · intro h0
          exfalso
          simp [ghpro.backport_pr, hb, h1, h2, ghpro.runPick, hok, hne] at h0
      · constructor
        · intro h0
          exfalso
          simp [ghpro.backport_pr, hb, h1, h2, ghpro.runPick, hok, hne] at h0
        · intro _
          simp only [ghpro.backport_pr, hb, h1, h2, ghpro.runPick, hok]
          constructor
          · simp [hne]
          · intro hmem
            have h' : ¬branch = env.activeBranch ∧ env.activeBranch = branch := by
              simpa using hmem
            exact h'.1 h'.2.symm
    · constructor
      · intro h0
        exfalso
        simp [ghpro.backport_pr, hb, h1, h2] at h0
      · intro _
        simp only [ghpro.backport_pr, hb, h1, h2]
        constructor
        · simp [hne]
        · intro hmem
          exact checkout_back_not_mem_start env branch hne (by simpa using hmem)
  · by_cases hok : env.cherryPickOk
    · constructor
      · intro _
        refine ⟨["-m", "1", pr.merge_commit_sha], msgFor num pr.title (ghpro.sanitize b), ?_⟩
        simp [ghpro.backport_pr, hb, h1, ghpro.runPick, hok, hne]
      · intro h0
        exfalso
        simp [ghpro.backport_pr, hb, h1, ghpro.runPick, hok, hne] at h0
    · constructor
      · intro h0
        exfalso
        simp [ghpro.backport_pr, hb, h1, ghpro.runPick, hok, hne] at h0
      · intro _
        simp only [ghpro.backport_pr, hb, h1, ghpro.runPick, hok]
        constructor
        · simp [hne]
        · intro hmem
          have h' : ¬branch = env.activeBranch ∧ env.activeBranch = branch := by
            simpa using hmem
          exact h'.1 h'.2.symm

/-- Witness for C3 (amended): a successful run from `main` onto
`0.13.x` ends with `checkout main`; the mismatched-resume failure run
never checks out `main` again. -/
theorem C3_branch_restore_amended_witness :
    (∃ args msg,
      (ghpro.backport_pr ⟨"main", true, "", true⟩ "0.13.x" 123
        ⟨123, "T", some "b", true, "abcdef123", "u", none⟩).1 =
        GitCmd.checkout "0.13.x" ::
          ([GitCmd.pull] ++
           [GitCmd.cherry_pick args, GitCmd.commit_amend msg,
            GitCmd.checkout "main"])) ∧
    (GitCmd.checkout "0.13.x" ∈
      (ghpro.backport_pr ⟨"main", true, "cherry-picking commit abcde1", true⟩
        "0.13.x" 123 ⟨123, "T", some "b", true, "abcdef123", "u", none⟩).1 ∧
     GitCmd.checkout "main" ∉
      (ghpro.backport_pr ⟨"main", true, "cherry-picking commit abcde1", true⟩
        "0.13.x" 123 ⟨123, "T", some "b", true, "abcdef123", "u", none⟩).1) :=
  ⟨(C3_branch_restore_amended ⟨"main", true, "", true⟩ "0.13.x" 123
      ⟨123, "T", some "b", true, "abcdef123", "u", none⟩ "b" rfl
      (by decide)).1 (by decide),
   (C3_branch_restore_amended ⟨"main", true, "cherry-picking commit abcde1", true⟩
      "0.13.x" 123 ⟨123, "T", some "b", true, "abcdef123", "u", none⟩ "b" rfl
      (by decide)).2 (by decide)⟩

/-! ### C4 : commit messages and body sanitization -/

theorem replaceChar_mem (c a b : Char) (s : String)
    (h : c ∈ (replaceChar a b s).toList) :
    c = b ∨ (c ∈ s.toList ∧ c ≠ a) := by
  simp only [replaceChar, String.toList, List.mem_map] at h
  rcases h with ⟨d, hd, hdc⟩
  by_cases hda : d = a
  · simp [hda] at hdc
    exact Or.inl hdc.symm
  · simp [hda] at hdc
    subst hdc
    exact Or.inr ⟨hd, hda⟩

/-- **C4**: on success, Strategy A amends the commit message to
`Backport PR #<number>: <title>` + blank line + body with every `@`
and `#` replaced by a space, and Strategy B commits with the same
header but the body's `@` replaced by `_` only; the Strategy A
sanitizer leaves no `@` or `#` at all, and on `"cc @alice see #42"`
the two sanitizers give `"cc  alice see  42"` and `"cc _alice see #42"`
(the latter keeping `#`). -/
theorem C4_commit_messages :
    (∀ (env : GitEnvA) (branch : String) (num : Nat) (pr : PullRequest) (b : String),
      pr.body = some b →
      (ghpro.backport_pr env branch num pr).2 = PyResult.ret 0 →
      GitCmd.commit_amend (msgFor num pr.title (ghpro.sanitize b)) ∈
        (ghpro.backport_pr env branch num pr).1) ∧
    (∀ (env : GitEnvB) (branch : String) (num : Nat) (pr : PullRequest)
        (files : List ChangedFile) (b : String),
      pr.body = some b →
      (ghtools.backport_pr env branch num pr files).2 = PyResult.ret 0 →
      GitCmd.commit (msgFor num pr.title (ghtools.sanitize b)) ∈
        (ghtools.backport_pr env branch num pr files).1) ∧
    (∀ s : String, '@' ∉ (ghpro.sanitize s).toList ∧ '#' ∉ (ghpro.sanitize s).toList) ∧
    ghpro.sanitize "cc @alice see #42" = "cc  alice see  42" ∧
    ghtools.sanitize "cc @alice see #42" = "cc _alice see #42" := by
  refine ⟨?_, ?_, ?_, rfl, rfl⟩
  · intro env branch num pr b hb h0
    by_cases h1 : strContains "cherry-picking" env.statusText = true
    · by_cases h2 : strContains ("cherry-picking commit " ++ takeStr pr.merge_commit_sha 6)
          env.statusText = true
      · by_cases hok : env.cherryPickOk
        · simp [ghpro.backport_pr, hb, h1, h2, ghpro.runPick, hok]
        · exfalso
          simp [ghpro.backport_pr, hb, h1, h2, ghpro.runPick, hok] at h0
      · exfalso
        simp [ghpro.backport_pr, hb, h1, h2] at h0
    · by_cases hok : env.cherryPickOk
      · simp [ghpro.backport_pr, hb, h1, ghpro.runPick, hok]
      · exfalso
        simp [ghpro.backport_pr, hb, h1, ghpro.runPick, hok] at h0
  · intro env branch num pr files b hb h0
    by_cases hex : env.patchFileExists
    · by_cases hchk : env.checkOk
      · simp [ghtools.backport_pr, hb, hex, ghtools.finishPatch, hchk]
      · exfalso
        simp [ghtools.backport_pr, hb, hex, ghtools.finishPatch, hchk] at h0
    · by_cases hhttp : 400 ≤ env.httpStatus ∧ env.httpStatus < 600
      · exfalso
        simp [ghtools.backport_pr, hb, hex, hhttp] at h0
      · by_cases hchk : env.checkOk
        · simp [ghtools.backport_pr, hb, hex, hhttp, ghtools.finishPatch, hchk]
        · exfalso
          simp [ghtools.backport_pr, hb, hex, hhttp, ghtools.finishPatch, hchk] at h0
  · intro s
    constructor
    · intro hmem
      rcases replaceChar_mem _ _ _ _ hmem with h | ⟨hin, _⟩
      · exact absurd h (by decide)
      · rcases replaceChar_mem _ _ _ _ hin with h' | ⟨_, hne⟩
        · exact absurd h' (by decide)
        · exact hne rfl
    · intro hmem
      rcases replaceChar_mem _ _ _ _ hmem with h | ⟨_, hne⟩
      · exact absurd h (by decide)
      · exact hne rfl

/-- Witness for C4: both strategies run to success on body
`"cc @alice see #42"` and the synthesized messages appear in their
traces with the respective sanitizations. -/
theorem C4_commit_messages_witness :
    GitCmd.commit_amend "Backport PR #123: T\n\ncc  alice see  42" ∈
      (ghpro.backport_pr ⟨"main", true, "", true⟩ "0.13.x" 123
        ⟨123, "T", some "cc @alice see #42", true, "abcdef123", "u", none⟩).1 ∧
    GitCmd.commit "Backport PR #42: T\n\ncc _alice see #42" ∈
      (ghtools.backport_pr ⟨"main", true, "LP", 200, "HP", true⟩ "0.13.x" 42
        ⟨42, "T", some "cc @alice see #42", true, "sha", "http://p", none⟩ [⟨"f1"⟩]).1 ∧
    '@' ∉ (ghpro.sanitize "cc @alice see #42").toList :=
  ⟨C4_commit_messages.1 ⟨"main", true, "", true⟩ "0.13.x" 123
    ⟨123, "T", some "cc @alice see #42", true, "abcdef123", "u", none⟩
    "cc @alice see #42" rfl (by decide),
   C4_commit_messages.2.1 ⟨"main", true, "LP", 200, "HP", true⟩ "0.13.x" 42
    ⟨42, "T", some "cc @alice see #42", true, "sha", "http://p", none⟩ [⟨"f1"⟩]
    "cc @alice see #42" rfl (by decide),
   (C4_commit_messages.2.2.1 "cc @alice see #42").1⟩

/-! ### C9 : a null pull-request body raises after checkout and pull -/

/-- **C9**: in both variants, a pull request whose `body` is null makes
`backport_pr` end in an uncaught exception (`None.replace` →
`AttributeError`) instead of returning an exit code, and by that point
the checkout of the target branch and the pull have already been
performed. -/
theorem C9_null_body (env : GitEnvA) (envB : GitEnvB) (branch : String)
    (num : Nat) (pr : PullRequest) (files : List ChangedFile)
    (hb : pr.body = none) (hne : branch ≠ env.activeBranch)
    (ht : env.tracking = true) (hneB : branch ≠ envB.activeBranch) :
    ghpro.backport_pr env branch num pr =
      ([GitCmd.checkout branch, GitCmd.pull], PyResult.raise PyErr.attributeError) ∧
    ghtools.backport_pr envB branch num pr files =
      ([GitCmd.checkout branch, GitCmd.pull], PyResult.raise PyErr.attributeError) := by
  constructor
  · simp [ghpro.backport_pr, hb, hne, ht]
  · simp [ghtools.backport_pr, hb, hneB]

/-- Witness for C9 at a concrete null-body pull request. -/
theorem C9_null_body_witness :
    ghpro.backport_pr ⟨"main", true, "", true⟩ "0.13.x" 1
      ⟨1, "T", none, true, "s", "u", none⟩ =
      ([GitCmd.checkout "0.13.x", GitCmd.pull], PyResult.raise PyErr.attributeError) ∧
    ghtools.backport_pr ⟨"main", true, "LP", 200, "HP", true⟩ "0.13.x" 1
      ⟨1, "T", none, true, "s", "u", none⟩ [] =
      ([GitCmd.checkout "0.13.x", GitCmd.pull], PyResult.raise PyErr.attributeError) :=
  C9_null_body ⟨"main", true, "", true⟩ ⟨"main", true, "LP", 200, "HP", true⟩
    "0.13.x" 1 ⟨1, "T", none, true, "s", "u", none⟩ [] rfl (by decide) rfl (by decide)

/-! ### C6 : Strategy B patch acquisition and persistence -/

/-- **C6**: Strategy B reads the patch from a local `PR<number>.patch`
when that file exists (performing no download), otherwise downloads it
from the pull request's patch URL, raising on a non-success HTTP
status; when the dry-run check fails it returns 1, writing the patch
to `PR<number>.patch` only when the file did not already exist (an
existing file is never overwritten), and an identical re-invocation
against the saved file then reads the file instead of downloading. -/
theorem C6_patch_file_handling (env : GitEnvB) (branch : String) (num : Nat)
    (pr : PullRequest) (files : List ChangedFile) (b : String)
    (hb : pr.body = some b) :
    (env.patchFileExists = true →
      GitCmd.read_patch ("PR" ++ toString num ++ ".patch") ∈
        (ghtools.backport_pr env branch num pr files).1 ∧
      (∀ url, GitCmd.http_get url ∉ (ghtools.backport_pr env branch num pr files).1) ∧
      GitCmd.apply_check env.localPatch ∈ (ghtools.backport_pr env branch num pr files).1 ∧
      (∀ f c, GitCmd.write_patch f c ∉ (ghtools.backport_pr env branch num pr files).1)) ∧
    (env.patchFileExists = false → 400 ≤ env.httpStatus → env.httpStatus < 600 →
      (ghtools.backport_pr env branch num pr files).2 =
        PyResult.raise (PyErr.httpError env.httpStatus) ∧
      (∀ f c, GitCmd.write_patch f c ∉ (ghtools.backport_pr env branch num pr files).1)) ∧
    (env.patchFileExists = false → ¬ (400 ≤ env.httpStatus ∧ env.httpStatus < 600) →
      GitCmd.http_get pr.patch_url ∈ (ghtools.backport_pr env branch num pr files).1 ∧
      GitCmd.apply_check env.httpContent ∈ (ghtools.backport_pr env branch num pr files).1) ∧
    (env.patchFileExists = false → ¬ (400 ≤ env.httpStatus ∧ env.httpStatus < 600) →
      env.checkOk = false →
      (ghtools.backport_pr env branch num pr files).2 = PyResult.ret 1 ∧
      GitCmd.write_patch ("PR" ++ toString num ++ ".patch") env.httpContent ∈
        (ghtools.backport_pr env branch num pr files).1 ∧
      GitCmd.read_patch ("PR" ++ toString num ++ ".patch") ∈
        (ghtools.backport_pr
          { env with patchFileExists := true, localPatch := env.httpContent }
          branch num pr files).1 ∧
      (∀ url, GitCmd.http_get url ∉
        (ghtools.backport_pr
          { env with patchFileExists := true, localPatch := env.httpContent }
          branch num pr files).1)) := by
  refine ⟨?_, ?_, ?_, ?_⟩
  · intro hex
    by_cases hchk : env.checkOk <;> by_cases hne : branch ≠ env.activeBranch <;>
      simp [ghtools.backport_pr, hb, hex, ghtools.finishPatch, hchk, hne]
  · intro hex h4 h6
    by_cases hne : branch ≠ env.activeBranch <;>
      simp [ghtools.backport_pr, hb, hex, h4, h6, hne]
  · intro hex hhttp
    by_cases hchk : env.checkOk <;> by_cases hne : branch ≠ env.activeBranch <;>
      simp [ghtools.backport_pr, hb, hex, hhttp, ghtools.finishPatch, hchk, hne]
  · intro hex hhttp hchk
    refine ⟨?_, ?_, ?_, ?_⟩
    · simp [ghtools.backport_pr, hb, hex, hhttp, ghtools.finishPatch, hchk]
    · by_cases hne : branch ≠ env.activeBranch <;>
        simp [ghtools.backport_pr, hb, hex, hhttp, ghtools.finishPatch, hchk, hne]
    · by_cases hchk2 : env.checkOk <;> by_cases hne : branch ≠ env.activeBranch <;>
        simp [ghtools.backport_pr, hb, ghtools.finishPatch, hchk2, hne]
    · intro url
      by_cases hchk2 : env.checkOk <;> by_cases hne : branch ≠ env.activeBranch <;>
        simp [ghtools.backport_pr, hb, ghtools.finishPatch, hchk2, hne]

/-- Witness for C6: failed check with no local file saves `PR42.patch`
and returns 1; the re-run on the saved file reads it; an existing file
is never overwritten; an HTTP 404 raises. -/
theorem C6_patch_file_handling_witness :
    ((ghtools.backport_pr ⟨"main", false, "LP", 200, "HP", false⟩ "0.13.x" 42
        ⟨42, "T", some "b", true, "sha", "http://p", none⟩ []).2 = PyResult.ret 1 ∧
      GitCmd.write_patch "PR42.patch" "HP" ∈
        (ghtools.backport_pr ⟨"main", false, "LP", 200, "HP", false⟩ "0.13.x" 42
          ⟨42, "T", some "b", true, "sha", "http://p", none⟩ []).1 ∧
      GitCmd.read_patch "PR42.patch" ∈
        (ghtools.backport_pr ⟨"main", true, "HP", 200, "HP", false⟩ "0.13.x" 42
          ⟨42, "T", some "b", true, "sha", "http://p", none⟩ []).1 ∧
      (∀ url, GitCmd.http_get url ∉
        (ghtools.backport_pr ⟨"main", true, "HP", 200, "HP", false⟩ "0.13.x" 42
          ⟨42, "T", some "b", true, "sha", "http://p", none⟩ []).1)) ∧
    (∀ f c, GitCmd.write_patch f c ∉
      (ghtools.backport_pr ⟨"main", true, "LP", 200, "HP", false⟩ "0.13.x" 42
        ⟨42, "T", some "b", true, "sha", "http://p", none⟩ []).1) ∧
    (ghtools.backport_pr ⟨"main", false, "LP", 404, "HP", true⟩ "0.13.x" 42
      ⟨42, "T", some "b", true, "sha", "http://p", none⟩ []).2 =
      PyResult.raise (PyErr.httpError 404) :=
  ⟨(C6_patch_file_handling ⟨"main", false, "LP", 200, "HP", false⟩ "0.13.x" 42
      ⟨42, "T", some "b", true, "sha", "http://p", none⟩ [] "b" rfl).2.2.2
      rfl (by decide) rfl,
   ((C6_patch_file_handling ⟨"main", true, "LP", 200, "HP", false⟩ "0.13.x" 42
      ⟨42, "T", some "b", true, "sha", "http://p", none⟩ [] "b" rfl).1 rfl).2.2.2,
   ((C6_patch_file_handling ⟨"main", false, "LP", 404, "HP", true⟩ "0.13.x" 42
      ⟨42, "T", some "b", true, "sha", "http://p", none⟩ [] "b" rfl).2.1 rfl
      (by decide) (by decide)).1⟩

/-! ### C8 : the two `backport_re` variants differ -/

/-- **C8**: the two variants' `already_backported` are not
extensionally equal: the ghpro pattern's trailing `[^.]` consumes a
character after the digits, so on `"Merge pull request #155."` ghpro
extracts the truncated 15 while ghtools extracts 155, and on the line
`"Merge #5"`, which ends exactly at the digits, ghpro extracts nothing
while ghtools extracts 5. -/
theorem C8_variants_not_equal :
    ghpro.already_backported "Merge pull request #155." = {15} ∧
    ghtools.already_backported "Merge pull request #155." = {155} ∧
    ghpro.already_backported "Merge #5" = ∅ ∧
    ghtools.already_backported "Merge #5" = {5} ∧
    ghpro.already_backported "Merge pull request #155." ≠
      ghtools.already_backported "Merge pull request #155." := by
  have h1 : ghpro.backport_re_findall "Merge pull request #155." = [15] := rfl
  have h2 : ghtools.backport_re_findall "Merge pull request #155." = [155] := rfl
  have h3 : ghpro.backport_re_findall "Merge #5" = [] := rfl
  have h4 : ghtools.backport_re_findall "Merge #5" = [5] := rfl
  refine ⟨?_, ?_, ?_, ?_, ?_⟩
  · simp [ghpro.already_backported, h1]
  · simp [ghtools.already_backported, h2]
  · simp [ghpro.already_backported, h3]
  · simp [ghtools.already_backported, h4]
  · intro h
    have h15 : (15 : ℕ) ∈ ghtools.already_backported "Merge pull request #155." :=
      h ▸ (by decide)
    exact absurd h15 (by decide)

/-! ### C5 : `already_backported` extraction -/

theorem keywordAt_none_of_no_starts (cs : List Char)
    (hB : startsWithL "Backport".toList cs = false)
    (hb : startsWithL "backport".toList cs = false)
    (hM : startsWithL "Merge".toList cs = false)
    (hm : startsWithL "merge".toList cs = false) :
    keywordAt cs = none := by
  unfold keywordAt
  rw [hB, hb, hM, hm]
  simp

theorem ghpro_findallAux_nil_of_no_keyword (fuel : Nat) (cs : List Char)
    (hB : containsL "Backport".toList cs = false)
    (hb : containsL "backport".toList cs = false)
    (hM : containsL "Merge".toList cs = false)
    (hm : containsL "merge".toList cs = false) :
    ghpro.findallAux fuel cs = [] := by
  induction fuel generalizing cs with
  | zero => rfl
  | succ n ih =>
    cases cs with
    | nil => rfl
    | cons c rest =>
      rw [containsL, Bool.or_eq_false_iff] at hB hb hM hm
      have hkw := keywordAt_none_of_no_starts (c :: rest) hB.1 hb.1 hM.1 hm.1
      simp only [ghpro.findallAux, hkw]
      exact ih rest hB.2 hb.2 hM.2 hm.2

theorem ghtools_findallAux_nil_of_no_keyword (fuel : Nat) (cs : List Char)
    (hB : containsL "Backport".toList cs = false)
    (hb : containsL "backport".toList cs = false)
    (hM : containsL "Merge".toList cs = false)
    (hm : containsL "merge".toList cs = false) :
    ghtools.findallAux fuel cs = [] := by
  induction fuel generalizing cs with
  | zero => rfl
  | succ n ih =>
    cases cs with
    | nil => rfl
    | cons c rest =>
      rw [containsL, Bool.or_eq_false_iff] at hB hb hM hm
      have hkw := keywordAt_none_of_no_starts (c :: rest) hB.1 hb.1 hM.1 hm.1
      simp only [ghtools.findallAux, hkw]
      exact ih rest hB.2 hb.2 hM.2 hm.2

/-- **C5, counterexample**: the source patterns are *not*
case-insensitive — only the first keyword letter may vary.  On
`"MERGE pull request #9 x"` both source variants extract nothing,
while the case-insensitive pattern of the claim extracts 9, so
`already_backported` does not return the case-insensitively extracted
set. -/
theorem C5_case_counterexample :
    ghpro.already_backported "MERGE pull request #9 x" = ∅ ∧
    ghtools.already_backported "MERGE pull request #9 x" = ∅ ∧
    spec_ci_already "MERGE pull request #9 x" = {9} ∧
    ghpro.already_backported "MERGE pull request #9 x" ≠
      spec_ci_already "MERGE pull request #9 x" ∧
    ghtools.already_backported "MERGE pull request #9 x" ≠
      spec_ci_already "MERGE pull request #9 x" := by
  have h1 : ghpro.backport_re_findall "MERGE pull request #9 x" = [] := rfl
  have h2 : ghtools.backport_re_findall "MERGE pull request #9 x" = [] := rfl
  have h3 : ciFindallAux "MERGE pull request #9 x".toList.length
      "MERGE pull request #9 x".toList = [9] := rfl
  refine ⟨?_, ?_, ?_, ?_, ?_⟩
  · simp [ghpro.already_backported, h1]
  · simp [ghtools.already_backported, h2]
  · unfold spec_ci_already
    rw [h3]
    simp
  · intro h
    have h9 : (9 : ℕ) ∈ ghpro.already_backported "MERGE pull request #9 x" :=
      h ▸ (by decide)
    exact absurd h9 (by decide)
  · intro h
    have h9 : (9 : ℕ) ∈ ghtools.already_backported "MERGE pull request #9 x" :=
      h ▸ (by decide)
    exact absurd h9 (by decide)

/-- **C5, amended**: `already_backported` returns the set of distinct
integers extracted from the log text by a pattern matching `backport`
or `merge` *with only the first letter case-insensitive*
(`[Bb]ackport|[Mm]erge`) followed eventually by a run of digits: the
line `"abc1234 Merge pull request #55 from someone/branch"`
contributes 55 in both variants, and a log containing none of the four
keyword spellings contributes no number at all. -/
theorem C5_already_backported_amended :
    (55 ∈ ghpro.already_backported "abc1234 Merge pull request #55 from someone/branch" ∧
     55 ∈ ghtools.already_backported "abc1234 Merge pull request #55 from someone/branch") ∧
    (∀ s : String, hasBackportKeyword s = false →
      ghpro.already_backported s = ∅ ∧ ghtools.already_backported s = ∅) := by
  constructor
  · exact ⟨by decide, by decide⟩
  · intro s hs
    rw [hasBackportKeyword, Bool.or_eq_false_iff, Bool.or_eq_false_iff,
      Bool.or_eq_false_iff] at hs
    constructor
    · rw [ghpro.already_backported, ghpro.backport_re_findall,
        ghpro_findallAux_nil_of_no_keyword _ _ hs.1.1.1 hs.1.1.2 hs.1.2 hs.2]
      rfl
    · rw [ghtools.already_backported, ghtools.backport_re_findall,
        ghtools_findallAux_nil_of_no_keyword _ _ hs.1.1.1 hs.1.1.2 hs.1.2 hs.2]
      rfl

/-- Witness for C5 (amended): the 55-line extraction, plus a concrete
keyword-free log line yielding the empty set. -/
theorem C5_already_backported_amended_witness :
    55 ∈ ghpro.already_backported "abc1234 Merge pull request #55 from someone/branch" ∧
    ghpro.already_backported "abc1234 fix typo in docs" = ∅ ∧
    ghtools.already_backported "abc1234 fix typo in docs" = ∅ :=
  ⟨C5_already_backported_amended.1.1,
   (C5_already_backported_amended.2 "abc1234 fix typo in docs" (by decide)).1,
   (C5_already_backported_amended.2 "abc1234 fix typo in docs" (by decide)).2⟩

/-! ### C10 : `guess_project` partiality and the URL pattern -/

theorem startsWithCI_iff (p : List Char) : ∀ cs : List Char,
    startsWithCI p cs = true ↔ ∃ g rest, cs = g ++ rest ∧ g.map Char.toLower = p := by
  induction p with
  | nil =>
    intro cs
    constructor
    · intro _
      exact ⟨[], cs, rfl, rfl⟩
    · intro _
      rfl
  | cons a p' ih =>
    intro cs
    cases cs with
    | nil =>
      constructor
      · intro h
        exact absurd h (by simp [startsWithCI])
      · rintro ⟨g, rest, heq, hmap⟩
        exfalso
        cases g with
        | nil => simp at hmap
        | cons x g' => simp at heq
    | cons b cs' =>
      constructor
      · intro h
        simp only [startsWithCI, Bool.and_eq_true, decide_eq_true_eq] at h
        obtain ⟨g, rest, heq, hmap⟩ := (ih cs').mp h.2
        refine ⟨b :: g, rest, by rw [heq, List.cons_append], ?_⟩
        simp [hmap, h.1]
      · rintro ⟨g, rest, heq, hmap⟩
        cases g with
        | nil => simp at hmap
        | cons x g' =>
          rw [List.cons_append] at heq
          injection heq with h1 h2
          simp only [List.map_cons] at hmap
          injection hmap with h3 h4
          simp only [startsWithCI, Bool.and_eq_true, decide_eq_true_eq]
          exact ⟨by rw [h1, h3], (ih cs').mpr ⟨g', rest, h2, h4⟩⟩

theorem innerGroup_cons_isSome (c : Char) (rest : List Char) :
    (innerGroup (c :: rest)).isSome = true ↔
      (¬ c = '\n' ∧ (innerGroup rest).isSome = true) ∨
        startsWithCI ".git".toList (c :: rest) = true := by
  by_cases hc : c = '\n'
  · subst hc
    by_cases hs : startsWithCI ".git".toList ('\n' :: rest) = true <;>
      simp [innerGroup, hs]
  · cases h : innerGroup rest with
    | some g => simp [innerGroup, hc, h]
    | none =>
      by_cases hs : startsWithCI ".git".toList (c :: rest) = true <;>
        simp [innerGroup, hc, h, hs]

theorem innerGroup_isSome_iff : ∀ cs : List Char,
    (innerGroup cs).isSome = true ↔
      ∃ b d e, cs = b ++ d ++ e ∧ d.map Char.toLower = ".git".toList ∧
        '\n' ∉ b := by
  intro cs
  induction cs with
  | nil =>
    constructor
    · intro h
      simp [innerGroup] at h
    · rintro ⟨b, d, e, heq, hmap, hb⟩
      exfalso
      have hlen := congrArg List.length heq
      simp at hlen
      have hd := congrArg List.length hmap
      simp at hd
      omega
  | cons c rest ih =>
    rw [innerGroup_cons_isSome]
    constructor
    · rintro (⟨hc, hrest⟩ | hs)
      · obtain ⟨b, d, e, heq, hmap, hb⟩ := ih.mp hrest
        refine ⟨c :: b, d, e, by rw [heq, List.cons_append, List.cons_append], hmap, ?_⟩
        simp [hb]
        exact fun h => hc h.symm
      · obtain ⟨d, e, heq, hmap⟩ := (startsWithCI_iff _ _).mp hs
        exact ⟨[], d, e, by rw [heq]; rfl, hmap, by simp⟩
    · rintro ⟨b, d, e, heq, hmap, hb⟩
      cases b with
      | nil =>
        right
        refine (startsWithCI_iff _ _).mpr ⟨d, e, ?_, hmap⟩
        simpa using heq
      | cons x b' =>
        left
        rw [List.cons_append, List.cons_append] at heq
        injection heq with h1 h2
        simp only [List.mem_cons, not_or] at hb
        constructor
        · rw [h1]
          exact fun h => hb.1 h.symm
        · exact ih.mpr ⟨b', d, e, h2, hmap, hb.2⟩

theorem tryHere_isSome_iff (cs : List Char) :
    (tryHere cs).isSome = true ↔
      ∃ g1 x g2 c rest, cs = g1 ++ x :: (g2 ++ c :: rest) ∧
        g1.map Char.toLower = "github".toList ∧ x ≠ '\n' ∧
        g2.map Char.toLower = "com".toList ∧
        (c = ':' ∨ c = '/') ∧ (innerGroup rest).isSome = true := by
  constructor
  · intro h
    rw [tryHere] at h
    split at h
    · next hs =>
      split at h
      · next x rest1 hdropeq =>
        split at h
        · simp at h
        · next hx =>
          split at h
          · next hs2 =>
            split at h
            · next c rest hdrop2eq =>
              split at h
              · next hc =>
                obtain ⟨g1, rest0, heq, hmap⟩ := (startsWithCI_iff _ _).mp hs
                have hglen : g1.length = 6 := by
                  have hl := congrArg List.length hmap
                  simpa using hl
                have hr0 : rest0 = x :: rest1 := by
                  rw [← hdropeq, heq, ← hglen, List.drop_left]
                obtain ⟨g2, rest2, heq2, hmap2⟩ := (startsWithCI_iff _ _).mp hs2
                have hg2len : g2.length = 3 := by
                  have hl := congrArg List.length hmap2
                  simpa using hl
                have hr2 : rest2 = c :: rest := by
                  rw [← hdrop2eq, heq2, ← hg2len, List.drop_left]
                refine ⟨g1, x, g2, c, rest, ?_, hmap, hx, hmap2, hc, h⟩
                rw [heq, hr0, heq2, hr2]
              · simp at h
            · simp at h
          · simp at h
      · simp at h
    · simp at h
  · rintro ⟨g1, x, g2, c, rest, heq, hmap, hx, hmap2, hc, hi⟩
    have hglen : g1.length = 6 := by
      have hl := congrArg List.length hmap
      simpa using hl
    have hg2len : g2.length = 3 := by
      have hl := congrArg List.length hmap2
      simpa using hl
    have hs : startsWithCI "github".toList cs = true :=
      (startsWithCI_iff _ _).mpr ⟨g1, x :: (g2 ++ c :: rest), heq, hmap⟩
    have hdrop : cs.drop 6 = x :: (g2 ++ c :: rest) := by
      rw [heq, ← hglen, List.drop_left]
    have hs2 : startsWithCI "com".toList (g2 ++ c :: rest) = true :=
      (startsWithCI_iff _ _).mpr ⟨g2, c :: rest, rfl, hmap2⟩
    have hdrop2 : (g2 ++ c :: rest).drop 3 = c :: rest := by
      rw [← hg2len, List.drop_left]
    rw [tryHere, hs]
    simp only [if_true, hdrop, if_neg hx, hs2, hdrop2]
    simp [hc, hi]

theorem outerScan_isSome_iff : ∀ cs : List Char,
    (outerScan cs).isSome = true ↔
      ∃ a rest, cs = a ++ rest ∧ '\n' ∉ a ∧ (tryHere rest).isSome = true := by
  intro cs
  induction cs with
  | nil =>
    constructor
    · intro h
      simp [outerScan] at h
    · rintro ⟨a, rest, heq, ha, ht⟩
      have ha' : a = [] := by
        cases a with
        | nil => rfl
        | cons x a' => simp at heq
      have hr : rest = [] := by
        rw [ha'] at heq
        simpa using heq.symm
      rw [hr] at ht
      simp [tryHere, startsWithCI] at ht
  | cons c rest ih =>
    by_cases hc : c = '\n'
    · subst hc
      constructor
      · intro h
        simp only [outerScan, if_pos rfl] at h
        exact ⟨[], '\n' :: rest, rfl, by simp, h⟩
      · rintro ⟨a, rest', heq, ha, ht⟩
        cases a with
        | nil =>
          simp only [List.nil_append] at heq
          rw [← heq] at ht
          simpa [outerScan] using ht
        | cons x a' =>
          exfalso
          rw [List.cons_append] at heq
          injection heq with h1 _
          refine ha ?_
          rw [← h1]
          exact List.mem_cons_self _ _
    · cases h : outerScan rest with
      | some g =>
        constructor
        · intro _
          obtain ⟨a, rest', heq, ha, ht⟩ := ih.mp (by rw [h]; rfl)
          refine ⟨c :: a, rest', by rw [List.cons_append, heq], ?_, ht⟩
          simp only [List.mem_cons, not_or]
          exact ⟨fun hx => hc hx.symm, ha⟩
        · intro _
          simp [outerScan, hc, h]
      | none =>
        constructor
        · intro hx
          simp only [outerScan, hc, if_neg hc, h] at hx
          exact ⟨[], c :: rest, rfl, by simp, hx⟩
        · rintro ⟨a, rest', heq, ha, ht⟩
          cases a with
          | nil =>
            simp only [List.nil_append] at heq
            rw [← heq] at ht
            simp only [outerScan, if_neg hc, h]
            exact ht
          | cons x a' =>
            rw [List.cons_append] at heq
            injection heq with h1 h2
            exfalso
            have hsome : (outerScan rest).isSome = true := by
              apply ih.mpr
              refine ⟨a', rest', h2, ?_, ht⟩
              simp only [List.mem_cons, not_or] at ha
              exact ha.2
            rw [h] at hsome
            simp at hsome

theorem project_pat_group_isSome_iff (url : String) :
    (project_pat_group url).isSome = true ↔ PatDecomp url.toList := by
  have hmap : (project_pat_group url).isSome = (outerScan url.toList).isSome := by
    rw [project_pat_group]
    cases outerScan url.toList <;> rfl
  rw [hmap, outerScan_isSome_iff]
  unfold PatDecomp
  constructor
  · rintro ⟨a, rest, heq, ha, ht⟩
    rw [tryHere_isSome_iff] at ht
    obtain ⟨g1, x, g2, c, rest', heq2, hg1, hx, hg2, hc, hi⟩ := ht
    rw [innerGroup_isSome_iff] at hi
    obtain ⟨b, d, e, heq3, hd, hb⟩ := hi
    refine ⟨a, g1, x, g2, c, b, d, e, ?_, hg1, hx, hg2, hc, hd, ha, hb⟩
    rw [heq, heq2, heq3]
    simp [List.append_assoc]
  · rintro ⟨a, g1, x, g2, c, b, d, e, heq, hg1, hx, hg2, hc, hd, ha, hb⟩
    refine ⟨a, g1 ++ x :: (g2 ++ c :: (b ++ d ++ e)), ?_, ha, ?_⟩
    · rw [heq]
      simp [List.append_assoc]
    · rw [tryHere_isSome_iff]
      refine ⟨g1, x, g2, c, b ++ d ++ e, rfl, hg1, hx, hg2, hc, ?_⟩
      rw [innerGroup_isSome_iff]
      exact ⟨b, d, e, rfl, hd, hb⟩

theorem filter_head_eq_find (p : Remote → Bool) (l : List Remote) :
    (l.filter p).head? = l.find? p := by
  induction l with
  | nil => rfl
  | cons r rest ih =>
    by_cases h : p r <;> simp [List.filter_cons, List.find?_cons, h, ih]

/-- **C10, counterexample**: `guess_project` returns a value for the
remote URL `git@github.com:o/r.gitZZ`, which does *not* end in `.git`
(case-insensitively): re.match only anchors the pattern at the start,
so `.git` may be followed by further characters.  This falsifies the
claim that a result is returned only when the URL ends in `.git`. -/
theorem C10_guess_project_counterexample :
    guess_project [⟨"origin", "git@github.com:o/r.gitZZ"⟩] = PyResult.ret "o/r" ∧
    ∀ e d, "git@github.com:o/r.gitZZ".toList = e ++ d →
      d.map Char.toLower ≠ ".git".toList := by
  refine ⟨by decide, ?_⟩
  intro e d heq hmap
  have hlen : d.length = 4 := by
    have h := congrArg List.length hmap
    simpa using h
  have helen : e.length = 20 := by
    have h := congrArg List.length heq
    simp [hlen] at h
    omega
  have hd : d = List.drop 20 "git@github.com:o/r.gitZZ".toList := by
    rw [heq, ← helen, List.drop_left]
  rw [hd] at hmap
  exact absurd hmap (by decide)

/-- **C10, amended**: `guess_project` is partial: it returns an
owner/repo string exactly for a repository whose first remote named
`upstream` — or, when none exists, first remote named `origin` — has a
URL containing `github`, then any single non-newline character (the
dot of `github.com` is an unescaped regex metacharacter), then `com`,
followed by `:` or `/` and, later, the substring `.git`
(case-insensitively; the match is anchored only at the start, so the
URL need not *end* in `.git`).  With no such remote it raises an index
error on the empty remote list; when the chosen remote's URL has no
such decomposition it raises on the failed match instead of returning
a value. -/
theorem C10_guess_project_amended (remotes : List Remote) :
    (remotes.find? (fun r => r.name = "upstream") = none →
     remotes.find? (fun r => r.name = "origin") = none →
      guess_project remotes = PyResult.raise PyErr.indexError) ∧
    (∀ r, remotes.find? (fun r => r.name = "upstream") = some r →
      (PatDecomp r.url.toList → ∃ s, guess_project remotes = PyResult.ret s) ∧
      (¬ PatDecomp r.url.toList →
        guess_project remotes = PyResult.raise PyErr.attributeError)) ∧
    (remotes.find? (fun r => r.name = "upstream") = none →
      ∀ r, remotes.find? (fun r => r.name = "origin") = some r →
      (PatDecomp r.url.toList → ∃ s, guess_project remotes = PyResult.ret s) ∧
      (¬ PatDecomp r.url.toList →
        guess_project remotes = PyResult.raise PyErr.attributeError)) := by
  have hup := filter_head_eq_find (fun r => r.name = "upstream") remotes
  have hor := filter_head_eq_find (fun r => r.name = "origin") remotes
  refine ⟨?_, ?_, ?_⟩
  · intro h1 h2
    rw [← hup] at h1
    rw [← hor] at h2
    have e1 : remotes.filter (fun r => r.name = "upstream") = [] := by
      simpa using h1
    have e2 : remotes.filter (fun r => r.name = "origin") = [] := by
      simpa using h2
    simp [guess_project, e1, e2]
  · intro r hr
    rw [← hup] at hr
    cases hf : remotes.filter (fun r => r.name = "upstream") with
    | nil =>
      rw [hf] at hr
      simp at hr
    | cons r0 tail =>
      rw [hf] at hr
      simp only [List.head?_cons, Option.some.injEq] at hr
      subst hr
      constructor
      · intro hp
        have hsome : (project_pat_group r0.url).isSome = true :=
          (project_pat_group_isSome_iff r0.url).mpr hp
        cases hg : project_pat_group r0.url with
        | none => rw [hg] at hsome; simp at hsome
        | some g =>
          exact ⟨g, by simp [guess_project, hf, hg]⟩
      · intro hp
        have hnone : project_pat_group r0.url = none := by
          cases hg : project_pat_group r0.url with
          | none => rfl
          | some g =>
            exact absurd ((project_pat_group_isSome_iff r0.url).mp (by rw [hg]; rfl)) hp
        simp [guess_project, hf, hnone]
  · intro h1 r hr
    rw [← hup] at h1
    rw [← hor] at hr
    have e1 : remotes.filter (fun r => r.name = "upstream") = [] := by
      simpa using h1
    cases hf : remotes.filter (fun r => r.name = "origin") with
    | nil =>
      rw [hf] at hr
      simp at hr
    | cons r0 tail =>
      rw [hf] at hr
      simp only [List.head?_cons, Option.some.injEq] at hr
      subst hr
      constructor
      · intro hp
        have hsome : (project_pat_group r0.url).isSome = true :=
          (project_pat_group_isSome_iff r0.url).mpr hp
        cases hg : project_pat_group r0.url with
        | none => rw [hg] at hsome; simp at hsome
        | some g =>
          exact ⟨g, by simp [guess_project, e1, hf, hg]⟩
      · intro hp
        have hnone : project_pat_group r0.url = none := by
          cases hg : project_pat_group r0.url with
          | none => rfl
          | some g =>
            exact absurd ((project_pat_group_isSome_iff r0.url).mp (by rw [hg]; rfl)) hp
        simp [guess_project, e1, hf, hnone]

/-- Witness for C10 (amended): the empty remote list raises the index
error, a matching `origin` URL returns a value, `githubXcom` (the
unescaped dot matching `X`) also returns a value, and a non-matching
`upstream` URL raises on the failed match. -/
theorem C10_guess_project_amended_witness :
    guess_project [] = PyResult.raise PyErr.indexError ∧
    (∃ s, guess_project [⟨"origin", "https://github.com/a/b.git"⟩] = PyResult.ret s) ∧
    (∃ s, guess_project [⟨"origin", "git@githubXcom:o/r.git"⟩] = PyResult.ret s) ∧
    guess_project [⟨"upstream", "x"⟩] = PyResult.raise PyErr.attributeError :=
  ⟨(C10_guess_project_amended []).1 rfl rfl,
   ((C10_guess_project_amended [⟨"origin", "https://github.com/a/b.git"⟩]).2.2 rfl
      ⟨"origin", "https://github.com/a/b.git"⟩ rfl).1
      ⟨"https://".toList, "github".toList, '.', "com".toList, '/',
       "a/b".toList, ".git".toList, [],
       by decide, by decide, by decide, by decide, Or.inr rfl,
       by decide, by decide, by decide⟩,
   ((C10_guess_project_amended [⟨"origin", "git@githubXcom:o/r.git"⟩]).2.2 rfl
      ⟨"origin", "git@githubXcom:o/r.git"⟩ rfl).1
      ⟨"git@".toList, "github".toList, 'X', "com".toList, ':',
       "o/r".toList, ".git".toList, [],
       by decide, by decide, by decide, by decide, Or.inl rfl,
       by decide, by decide, by decide⟩,
   ((C10_guess_project_amended [⟨"upstream", "x"⟩]).2.1 ⟨"upstream", "x"⟩ rfl).2
      (fun hp => absurd ((project_pat_group_isSome_iff "x").mpr hp) (by decide))⟩
